import Mathlib

/-!
Verification of the cargo-builder diagnostic pipeline.

Shallow embedding of the repository sources:
  - src/diagnostics.rs : message decoding, ANSI escape stripping, color formatting
  - src/logging.rs     : the error-log sink (Logger)
  - src/runner.rs      : the build-running pipeline (run_build)

External effects are made explicit: JSON parsing (serde_json::from_str) is an
injected function of type String -> Option Json, terminal color detection
(term::should_use_color) is an injected Bool, the child process is a record of
its observable behaviour, and file-system activity is recorded as an explicit
trace of operations.
-/

namespace CargoBuilder

/-! ## JSON values (model of serde_json::Value) -/

inductive Json where
  | null : Json
  | bool (b : Bool) : Json
  | num (n : Int) : Json
  | str (s : String) : Json
  | arr (elems : List Json) : Json
  | obj (fields : List (String × Json)) : Json

/-- Model of serde_json::Value::get on an object: field lookup by key
(returns none on non-objects, like Value::get). -/
def Json.get (j : Json) (key : String) : Option Json :=
  match j with
  | .obj fields => fields.lookup key
  | _ => none

/-- Model of Value::as_str. -/
def Json.asStr (j : Json) : Option String :=
  match j with
  | .str s => some s
  | _ => none

/-- Model of Value::as_bool. -/
def Json.asBool (j : Json) : Option Bool :=
  match j with
  | .bool b => some b
  | _ => none

/-! ## Configuration (src/main.rs) -/

inductive ColorChoice where
  | Auto : ColorChoice
  | Never : ColorChoice
  | Always : ColorChoice
deriving DecidableEq, Repr, Inhabited

structure Config where
  log_path : Option String
  log_on_success : Bool
  log_color : ColorChoice
  terminal_color : ColorChoice
  include_warnings : Bool
  show_build_output : Bool
  quiet : Bool
  cargo_args : List String
deriving Repr, Inhabited

/-! ## Message decoding (src/diagnostics.rs, parse_cargo_message) -/

inductive CargoMessage where
  | CompilerMessage (level : String) (rendered : String) : CargoMessage
  | BuildFinished (success : Bool) : CargoMessage
deriving DecidableEq, Repr

/-- reason extraction: json.get("reason").and_then(as_str).unwrap_or(""). -/
def jsonReason (j : Json) : String :=
  ((j.get "reason").bind Json.asStr).getD ""

/-- level extraction inside a compiler-message:
message.get("level").and_then(as_str).unwrap_or("unknown"). -/
def msgLevel (m : Json) : String :=
  ((m.get "level").bind Json.asStr).getD "unknown"

/-- rendered extraction inside a compiler-message:
message.get("rendered").and_then(as_str).unwrap_or(""). -/
def msgRendered (m : Json) : String :=
  ((m.get "rendered").bind Json.asStr).getD ""

/-- The part of parse_cargo_message after serde parsing succeeded
(diagnostics.rs lines 28-61). -/
def parse_json_message (json : Json) : Except String (Option CargoMessage) :=
  if jsonReason json = "compiler-message" then
    match json.get "message" with
    | none => .error "Missing message field in compiler-message"
    | some message =>
      if msgRendered message ≠ "" then
        .ok (some (.CompilerMessage (msgLevel message) (msgRendered message)))
      else
        .ok none
  else if jsonReason json = "build-finished" then
    .ok (some (.BuildFinished (((json.get "success").bind Json.asBool).getD false)))
  else
    .ok none

/-- Model of str::trim: drop whitespace characters from both ends. -/
def trimChars (l : List Char) : List Char :=
  ((l.dropWhile Char.isWhitespace).reverse.dropWhile Char.isWhitespace).reverse

def strTrim (s : String) : String :=
  String.mk (trimChars s.data)

/-- parse_cargo_message (diagnostics.rs lines 17-62).  The serde_json parse is
injected as parseJson; Err from serde corresponds to parseJson returning none. -/
def parse_cargo_message (parseJson : String → Option Json) (line : String) :
    Except String (Option CargoMessage) :=
  let t := strTrim line
  if t.isEmpty then .ok none
  else
    match parseJson t with
    | none => .ok none
    | some j => parse_json_message j

/-! ## ANSI escape stripping (src/diagnostics.rs, strip_ansi_codes)

The regex is  ESC [ [0-9;]* [mGKH]  and replace_all removes every
(leftmost, non-overlapping) match.  Because the digit class and the
terminator class are disjoint the regex is deterministic: a match at a
position exists iff the text there is ESC, then a bracket, then a maximal
run of digits and semicolons, then one of the four terminators. -/

def isCsiChar (c : Char) : Bool := c.isDigit || c == ';'

def isTermChar (c : Char) : Bool := c == 'm' || c == 'G' || c == 'K' || c == 'H'

/-- Attempt the regex match at the head of the character list; on success
return the remainder after the match. -/
def matchEsc (l : List Char) : Option (List Char) :=
  match l with
  | c1 :: c2 :: rest =>
    if c1 = '\x1b' ∧ c2 = '[' then
      match rest.dropWhile isCsiChar with
      | t :: rest2 => if isTermChar t then some rest2 else none
      | [] => none
    else none
  | _ => none

/-- replace_all with the empty replacement, scanning left to right: at every
position try a match; on success skip the matched run, otherwise keep the
character.  The fuel argument only bounds recursion depth; since a successful
match consumes at least three characters and a failure consumes one, fuel
equal to the list length always suffices, so stripFuel l.length l computes
the regex replacement exactly. -/
def stripFuel : Nat → List Char → List Char
  | _, [] => []
  | 0, l => l
  | n + 1, c :: rest =>
    match matchEsc (c :: rest) with
    | some rest2 => stripFuel n rest2
    | none => c :: stripFuel n rest

def stripAnsiList (l : List Char) : List Char :=
  stripFuel l.length l

def strip_ansi_codes (s : String) : String :=
  String.mk (stripAnsiList s.data)

/-! ## Color formatting (src/diagnostics.rs, format_for_terminal / format_for_log)

term::should_use_color() consults the environment and the TTY; it is injected
here as the boolean should_use_color. -/

def format_for_terminal (should_use_color : Bool) (config : Config) (rendered : String) : String :=
  match config.terminal_color with
  | .Never => strip_ansi_codes rendered
  | .Always => rendered
  | .Auto => if should_use_color then rendered else strip_ansi_codes rendered

def format_for_log (config : Config) (rendered : String) : String :=
  match config.log_color with
  | .Always => rendered
  | .Never => strip_ansi_codes rendered
  | .Auto => strip_ansi_codes rendered

/-! ## The log sink (src/logging.rs, Logger)

The Rust struct owns log_path, an optional open File, the config, and a
has_written flag.  The model keeps the flag, replaces the File option by an
opened flag, and makes the file system explicit: fileExists tracks whether
the file is present on disk, lines is the file content after creation
(truncation discards any pre-existing content), calls records the arguments
of the log_error invocations, and trace records every file-system operation
performed, in order. -/

inductive FsOp where
  | truncateOpen : FsOp
  | writeLine (s : String) : FsOp
  | flush : FsOp
  | removeFile : FsOp
deriving DecidableEq, Repr

structure LoggerState where
  opened : Bool
  has_written : Bool
  fileExists : Bool
  lines : List String
  calls : List String
  trace : List FsOp
deriving Repr, Inhabited, DecidableEq

/-- Logger::new: no file is opened or touched (fileExists0 says whether a file
from a previous run is already on disk). -/
def LoggerState.init (fileExists0 : Bool) : LoggerState :=
  { opened := false, has_written := false, fileExists := fileExists0,
    lines := [], calls := [], trace := [] }

def logHeaderLines : List String :=
  ["cargo-builder error log", "======================", ""]

def logHeaderOps : List FsOp :=
  [.truncateOpen, .writeLine "cargo-builder error log",
   .writeLine "======================", .writeLine ""]

/-- The file-system operations of one log_error call after the file is open:
the formatted text, a blank separator line, and a flush. -/
def logEntryOps (config : Config) (rendered : String) : List FsOp :=
  [.writeLine (format_for_log config rendered), .writeLine "", .flush]

/-- Logger::log_error (logging.rs lines 24-57): on the first call create the
file in truncate mode and write the two-line header plus a blank line; every
call appends the formatted text plus a blank line and flushes. -/
def Logger.log_error (config : Config) (w : LoggerState) (rendered : String) : LoggerState :=
  let w :=
    if w.opened then w
    else
      { w with opened := true, fileExists := true, lines := logHeaderLines,
               trace := w.trace ++ logHeaderOps }
  let log_content := format_for_log config rendered
  { w with has_written := true,
           lines := w.lines ++ [log_content, ""],
           calls := w.calls ++ [rendered],
           trace := w.trace ++ logEntryOps config rendered }

/-- Logger::finalize (logging.rs lines 59-72): drop the handle, then remove
the file iff the build succeeded, the keep-on-success policy is off, and
something was written (and the file is still present).  Returns the new state
and whether the file was removed. -/
def Logger.finalize (config : Config) (w : LoggerState) (build_success : Bool) :
    LoggerState × Bool :=
  if build_success && !config.log_on_success && w.has_written then
    if w.fileExists then
      ({ w with opened := false, fileExists := false, lines := [],
                trace := w.trace ++ [.removeFile] }, true)
    else ({ w with opened := false }, false)
  else ({ w with opened := false }, false)

/-! ## The runner (src/runner.rs, run_build)

The child process is a record of its observable behaviour: the lines it
writes to the two pipes and its exit code (none models exit by signal, where
ExitStatus::code() is None).  The runner consumes the pipes strictly in
program order; the events field records each read and the final wait, in the
order the coordinating thread performs them. -/

structure ChildRun where
  stdoutLines : List String
  stderrLines : List String
  exitCode : Option Int
deriving Repr, Inhabited

inductive RunEvent where
  | readStdout (line : String) : RunEvent
  | readStderr (line : String) : RunEvent
  | waitChild : RunEvent
deriving DecidableEq, Repr

structure RunAcc where
  logger : LoggerState
  build_success : Option Bool
  has_errors : Bool
  terminal : List String
  events : List RunEvent
deriving Repr, Inhabited

def RunAcc.init (fileExists0 : Bool) : RunAcc :=
  { logger := LoggerState.init fileExists0, build_success := none,
    has_errors := false, terminal := [], events := [] }

/-- Routing of a decoded CompilerMessage by level (runner.rs lines 58-74):
level "error" always prints (via format_for_terminal) and logs; "warning"
prints only when include_warnings is set and additionally logs only when
log_on_success is set; every other level is dropped. -/
def routeCompilerMessage (should_use_color : Bool) (config : Config) (acc : RunAcc)
    (level rendered : String) : RunAcc :=
  if level = "error" then
    { acc with
        has_errors := true,
        terminal := acc.terminal ++ [format_for_terminal should_use_color config rendered],
        logger := Logger.log_error config acc.logger rendered }
  else if level = "warning" ∧ config.include_warnings then
    { acc with
        terminal := acc.terminal ++ [format_for_terminal should_use_color config rendered],
        logger := if config.log_on_success
                  then Logger.log_error config acc.logger rendered
                  else acc.logger }
  else acc

/-- One iteration of the stdout loop (runner.rs lines 54-81): read the line,
decode it, route the result; a decode error aborts the run. -/
def processLine (parseJson : String → Option Json) (should_use_color : Bool)
    (config : Config) (acc : RunAcc) (line : String) : Except String RunAcc :=
  let acc := { acc with events := acc.events ++ [RunEvent.readStdout line] }
  match parse_cargo_message parseJson line with
  | .error e => .error e
  | .ok none => .ok acc
  | .ok (some (.CompilerMessage level rendered)) =>
      .ok (routeCompilerMessage should_use_color config acc level rendered)
  | .ok (some (.BuildFinished success)) =>
      .ok { acc with build_success := some success }

/-- The stdout for-loop. -/
def processLines (parseJson : String → Option Json) (should_use_color : Bool)
    (config : Config) : RunAcc → List String → Except String RunAcc
  | acc, [] => .ok acc
  | acc, line :: rest =>
      match processLine parseJson should_use_color config acc line with
      | .error e => .error e
      | .ok acc2 => processLines parseJson should_use_color config acc2 rest

structure RunResult where
  exitCode : Int
  finalSuccess : Bool
  structuredError : Bool
  hasErrors : Bool
  fallbackLogged : Bool
  fileDeleted : Bool
  logger : LoggerState
  terminal : List String
  events : List RunEvent
deriving Repr, Inhabited

/-! run_build (runner.rs lines 47-121) is embedded compositionally: each of
the following definitions names one value computed by the straight-line tail
of the Rust function, after the stdout loop has produced the accumulator
acc. -/

/-- The lines captured from stderr: none when show_build_output inherits the
stream, otherwise everything the child wrote (runner.rs lines 26-30, 84-90). -/
def capturedStderr (config : Config) (child : ChildRun) : List String :=
  if config.show_build_output then [] else child.stderrLines

/-- exit_status.code().unwrap_or(1) (runner.rs line 95). -/
def runExitCode (child : ChildRun) : Int :=
  child.exitCode.getD 1

/-- build_success.unwrap_or(exit_code == 0) (runner.rs line 96). -/
def runFinalSuccess (acc : RunAcc) (child : ChildRun) : Bool :=
  acc.build_success.getD (runExitCode child == 0)

/-- The fallback condition (runner.rs line 99):
!final_success && !has_errors && !captured_stderr.is_empty(). -/
def runDoFallback (config : Config) (acc : RunAcc) (child : ChildRun) : Bool :=
  !runFinalSuccess acc child && !acc.has_errors && !(capturedStderr config child).isEmpty

/-- captured_stderr.join("\n") (runner.rs line 100). -/
def fallbackText (config : Config) (child : ChildRun) : String :=
  String.intercalate "\n" (capturedStderr config child)

/-- The logger after the optional fallback log_error call (runner.rs
lines 99-104). -/
def runLogger1 (config : Config) (acc : RunAcc) (child : ChildRun) : LoggerState :=
  if runDoFallback config acc child
  then Logger.log_error config acc.logger (fallbackText config child)
  else acc.logger

/-- has_errors after the fallback step (runner.rs line 103). -/
def runHasErrors (config : Config) (acc : RunAcc) (child : ChildRun) : Bool :=
  acc.has_errors || runDoFallback config acc child

/-- logger.finalize(final_success && !has_errors) (runner.rs line 107). -/
def runFinalize (config : Config) (acc : RunAcc) (child : ChildRun) : LoggerState × Bool :=
  Logger.finalize config (runLogger1 config acc child)
    (runFinalSuccess acc child && !runHasErrors config acc child)

/-- The observable outcome of the straight-line tail of run_build. -/
def finishRun (config : Config) (child : ChildRun) (acc : RunAcc) : RunResult :=
  { exitCode := runExitCode child,
    finalSuccess := runFinalSuccess acc child,
    structuredError := acc.has_errors,
    hasErrors := runHasErrors config acc child,
    fallbackLogged := runDoFallback config acc child,
    fileDeleted := (runFinalize config acc child).2,
    logger := (runFinalize config acc child).1,
    terminal := acc.terminal,
    events := acc.events ++ (capturedStderr config child).map RunEvent.readStderr
      ++ [RunEvent.waitChild] }

/-- run_build (runner.rs lines 47-121): drain stdout line by line, then drain
the captured stderr, then wait for the child; compute the exit code and final
success; force-log the joined raw stderr when the build failed with no
structured error but non-empty captured stderr; finalize the logger with
final_success && !has_errors; return the child's exit code.
structuredError records has_errors before the fallback step, hasErrors after
it, fallbackLogged whether the fallback fired, fileDeleted whether finalize
removed the log file. -/
def run_build (parseJson : String → Option Json) (should_use_color : Bool)
    (config : Config) (fileExists0 : Bool) (child : ChildRun) :
    Except String RunResult :=
  match processLines parseJson should_use_color config (RunAcc.init fileExists0)
      child.stdoutLines with
  | .error e => .error e
  | .ok acc => .ok (finishRun config child acc)

/-- The sequence of BuildFinished success flags a stream of lines produces
under the decoder (used to state the last-one-wins property). -/
def observedFinishes (parseJson : String → Option Json) (lines : List String) : List Bool :=
  lines.filterMap fun line =>
    match parse_cargo_message parseJson line with
    | .ok (some (.BuildFinished b)) => some b
    | _ => none

/-- Reachability invariant of the Logger file-system model: once something was
written the file handle was opened, and once opened the file is on disk. -/
def LoggerInv (w : LoggerState) : Prop :=
  (w.has_written = true → w.opened = true) ∧ (w.opened = true → w.fileExists = true)

/-! ## Concrete inputs used in witnesses and counterexamples -/

def configDefault : Config :=
  { log_path := none, log_on_success := false, log_color := .Never,
    terminal_color := .Never, include_warnings := false,
    show_build_output := false, quiet := false, cargo_args := [] }

def errorMsgJson : Json :=
  Json.obj [("reason", Json.str "compiler-message"),
    ("message", Json.obj [("level", Json.str "error"), ("rendered", Json.str "boom")])]

def finishedTrueJson : Json :=
  Json.obj [("reason", Json.str "build-finished"), ("success", Json.bool true)]

def finishedFalseJson : Json :=
  Json.obj [("reason", Json.str "build-finished"), ("success", Json.bool false)]

def noMessageJson : Json :=
  Json.obj [("reason", Json.str "compiler-message")]

def nonBoolFinishedJson : Json :=
  Json.obj [("reason", Json.str "build-finished"), ("success", Json.str "yes")]

def parseNone : String → Option Json := fun _ => none

def parseStub : String → Option Json := fun s =>
  if s = "E" then some errorMsgJson
  else if s = "FT" then some finishedTrueJson
  else if s = "FF" then some finishedFalseJson
  else none

def parseNoMessage : String → Option Json := fun _ => some noMessageJson

def parseNonBool : String → Option Json := fun _ => some nonBoolFinishedJson

def childSuccessWithError : ChildRun :=
  { stdoutLines := ["E", "FT"], stderrLines := [], exitCode := some 0 }

def childFallback : ChildRun :=
  { stdoutLines := [], stderrLines := ["linker error"], exitCode := some 1 }

def childSeq : ChildRun :=
  { stdoutLines := ["x"], stderrLines := ["boom"], exitCode := some 1 }

def childLastWins : ChildRun :=
  { stdoutLines := ["FF", "FT"], stderrLines := [], exitCode := some 7 }

/-! # Theorems -/

/-! ## Escape stripping (C5) -/

/-- A list without the escape character is returned unchanged, for any fuel. -/
theorem stripFuel_of_no_esc :
    ∀ (n : Nat) (l : List Char), (∀ c ∈ l, c ≠ '\x1b') → stripFuel n l = l := by
  intro n
  induction n with
  | zero =>
      intro l _
      cases l with
      | nil => rfl
      | cons c rest => rfl
  | succ n ih =>
      intro l h
      cases l with
      | nil => rfl
      | cons c rest =>
          have hc : c ≠ '\x1b' := h c (List.mem_cons_self c rest)
          have hm : matchEsc (c :: rest) = none := by
            cases rest with
            | nil => rfl
            | cons c2 r2 =>
                have hno : ¬(c = '\x1b' ∧ c2 = '[') := fun hand => hc hand.1
                simp [matchEsc, hno]
          simp only [stripFuel, hm]
          rw [ih rest (fun x hx => h x (List.mem_cons_of_mem c hx))]

theorem stripAnsiList_of_no_esc (l : List Char) (h : ∀ c ∈ l, c ≠ '\x1b') :
    stripAnsiList l = l :=
  stripFuel_of_no_esc l.length l h

/-- C5 counterexample: stripping is not idempotent.  The input contains a
dangling ESC-bracket directly before a complete escape sequence; removing the
complete sequence makes the dangling prefix meet the final terminator, so a
second strip removes more. -/
theorem strip_ansi_not_idempotent :
    strip_ansi_codes (strip_ansi_codes "\x1b[\x1b[0mm") ≠
      strip_ansi_codes "\x1b[\x1b[0mm" := by
  decide

/-- C5 amended: stripping is idempotent on every input whose once-stripped
result contains no escape character (in particular on all escape-free
inputs); full idempotence fails, see strip_ansi_not_idempotent. -/
theorem strip_ansi_idempotent_of_stripped_esc_free (s : String)
    (h : ∀ c ∈ (strip_ansi_codes s).data, c ≠ '\x1b') :
    strip_ansi_codes (strip_ansi_codes s) = strip_ansi_codes s := by
  have h2 : ∀ c ∈ stripAnsiList s.data, c ≠ '\x1b' := h
  show String.mk (stripAnsiList (stripAnsiList s.data)) = String.mk (stripAnsiList s.data)
  rw [stripAnsiList_of_no_esc _ h2]

/-- Witness for the amended C5 statement at the concrete input of spec
scenario 3. -/
theorem strip_ansi_idempotent_witness :
    (∀ c ∈ (strip_ansi_codes "\x1b[31merror\x1b[0m: x").data, c ≠ '\x1b') ∧
    strip_ansi_codes (strip_ansi_codes "\x1b[31merror\x1b[0m: x") =
      strip_ansi_codes "\x1b[31merror\x1b[0m: x" :=
  ⟨by decide, strip_ansi_idempotent_of_stripped_esc_free "\x1b[31merror\x1b[0m: x" (by decide)⟩

/-! ## Decoding (C4, C9) -/

/-- C4: decode(line) returns an error iff the line parses as a structured
object whose discriminator is compiler-message with the nested message object
absent; empty or whitespace-only lines, non-parseable lines and unrecognized
discriminators yield no event and no error; inside a recognized
compiler-message a missing level defaults to unknown, rendered defaults to
empty, and an empty rendered text yields no event. -/
theorem decode_error_characterization (parseJson : String → Option Json) (line : String) :
    ((∃ e, parse_cargo_message parseJson line = .error e) ↔
      ((strTrim line).isEmpty = false ∧ ∃ j, parseJson (strTrim line) = some j ∧
        jsonReason j = "compiler-message" ∧ j.get "message" = none))
  ∧ ((strTrim line).isEmpty = true → parse_cargo_message parseJson line = .ok none)
  ∧ (parseJson (strTrim line) = none → parse_cargo_message parseJson line = .ok none)
  ∧ (∀ j, parseJson (strTrim line) = some j → jsonReason j ≠ "compiler-message" →
      jsonReason j ≠ "build-finished" → parse_cargo_message parseJson line = .ok none)
  ∧ (∀ j m, parseJson (strTrim line) = some j → jsonReason j = "compiler-message" →
      j.get "message" = some m → m.get "level" = none → msgRendered m ≠ "" →
      (strTrim line).isEmpty = false →
      parse_cargo_message parseJson line =
        .ok (some (.CompilerMessage "unknown" (msgRendered m))))
  ∧ (∀ j m, parseJson (strTrim line) = some j → jsonReason j = "compiler-message" →
      j.get "message" = some m → msgRendered m = "" → (strTrim line).isEmpty = false →
      parse_cargo_message parseJson line = .ok none) := by
  refine ⟨⟨?_, ?_⟩, ?_, ?_, ?_, ?_, ?_⟩
  · rintro ⟨e, he⟩
    cases hemp : (strTrim line).isEmpty with
    | true => simp [parse_cargo_message, hemp] at he
    | false =>
      cases hj : parseJson (strTrim line) with
      | none => simp [parse_cargo_message, hemp, hj] at he
      | some j =>
        have he2 : parse_json_message j = .error e := by
          simpa [parse_cargo_message, hemp, hj] using he
        by_cases hr : jsonReason j = "compiler-message"
        · cases hm : j.get "message" with
          | none => exact ⟨rfl, j, rfl, hr, hm⟩
          | some m =>
            simp only [parse_json_message, hr, if_true, hm] at he2
            by_cases hre : msgRendered m ≠ "" <;> simp [hre] at he2
        · by_cases hb : jsonReason j = "build-finished" <;>
            simp [parse_json_message, hr, hb] at he2
  · rintro ⟨hemp, j, hj, hr, hm⟩
    refine ⟨"Missing message field in compiler-message", ?_⟩
    simp [parse_cargo_message, hemp, hj, parse_json_message, hr, hm]
  · intro h
    simp [parse_cargo_message, h]
  · intro h
    cases hemp : (strTrim line).isEmpty <;> simp [parse_cargo_message, hemp, h]
  · intro j hj h1 h2
    cases hemp : (strTrim line).isEmpty with
    | true => simp [parse_cargo_message, hemp]
    | false => simp [parse_cargo_message, hemp, hj, parse_json_message, h1, h2]
  · intro j m hj hr hm hlev hre hemp
    have hlev2 : msgLevel m = "unknown" := by simp [msgLevel, hlev]
    simp [parse_cargo_message, hemp, hj, parse_json_message, hr, hm, hre, hlev2]
  · intro j m hj hr hm hre hemp
    simp [parse_cargo_message, hemp, hj, parse_json_message, hr, hm, hre]

/-- Witness for C4: a compiler-message object without a nested message field
is the (only) decode error. -/
theorem decode_error_characterization_witness :
    parse_cargo_message parseNoMessage "x" =
      .error "Missing message field in compiler-message" := by
  have h := (decode_error_characterization parseNoMessage "x").1.mpr
    ⟨rfl, noMessageJson, rfl, rfl, rfl⟩
  obtain ⟨e, he⟩ := h
  exact rfl

/-- C9: a build-finished object whose success field is present but not a
boolean decodes to BuildFinished false, the same as when the field is
absent. -/
theorem build_finished_nonbool_success_defaults_false
    (parseJson : String → Option Json) (line : String) (j : Json)
    (hj : parseJson (strTrim line) = some j) (hemp : (strTrim line).isEmpty = false)
    (hr : jsonReason j = "build-finished") :
    (∀ v, j.get "success" = some v → v.asBool = none →
      parse_cargo_message parseJson line = .ok (some (.BuildFinished false)))
  ∧ (j.get "success" = none →
      parse_cargo_message parseJson line = .ok (some (.BuildFinished false))) := by
  have hne : jsonReason j ≠ "compiler-message" := by rw [hr]; decide
  constructor
  · intro v hs hv
    simp [parse_cargo_message, hemp, hj, parse_json_message, hne, hr, hs, hv]
  · intro hs
    simp [parse_cargo_message, hemp, hj, parse_json_message, hne, hr, hs]

/-- Witness for C9 at a concrete object whose success field is the string
yes. -/
theorem build_finished_nonbool_witness :
    parse_cargo_message parseNonBool "x" = .ok (some (.BuildFinished false)) :=
  (build_finished_nonbool_success_defaults_false parseNonBool "x"
      nonBoolFinishedJson rfl rfl rfl).1 (Json.str "yes") rfl rfl

/-! ## The log sink (C3, C10) -/

theorem log_error_calls (config : Config) (w : LoggerState) (r : String) :
    (Logger.log_error config w r).calls = w.calls ++ [r] := by
  cases h : w.opened <;> simp [Logger.log_error, h]

theorem log_error_props (config : Config) (w : LoggerState) (r : String) (h : LoggerInv w) :
    LoggerInv (Logger.log_error config w r)
  ∧ (Logger.log_error config w r).opened = true
  ∧ (Logger.log_error config w r).has_written = true
  ∧ (Logger.log_error config w r).fileExists = true := by
  cases ho : w.opened with
  | false => simp [Logger.log_error, ho, LoggerInv]
  | true =>
      have hf : w.fileExists = true := h.2 ho
      simp [Logger.log_error, ho, hf, LoggerInv]

theorem foldl_log_error_inv (config : Config) :
    ∀ (rs : List String) (w : LoggerState), LoggerInv w →
      LoggerInv (List.foldl (Logger.log_error config) w rs) := by
  intro rs
  induction rs with
  | nil => intro w h; exact h
  | cons r rest ih =>
      intro w h
      exact ih _ (log_error_props config w r h).1

theorem foldl_log_error_keeps (config : Config) :
    ∀ (rs : List String) (w : LoggerState), LoggerInv w → w.has_written = true →
      w.fileExists = true →
      (List.foldl (Logger.log_error config) w rs).has_written = true
    ∧ (List.foldl (Logger.log_error config) w rs).fileExists = true := by
  intro rs
  induction rs with
  | nil => intro w _ h1 h2; exact ⟨h1, h2⟩
  | cons r rest ih =>
      intro w hinv _ _
      have h1 := log_error_props config w r hinv
      exact ih _ h1.1 h1.2.2.1 h1.2.2.2

theorem foldl_log_error_written (config : Config) :
    ∀ (rs : List String) (w : LoggerState), LoggerInv w → rs ≠ [] →
      (List.foldl (Logger.log_error config) w rs).has_written = true
    ∧ (List.foldl (Logger.log_error config) w rs).fileExists = true := by
  intro rs
  induction rs with
  | nil => intro w _ h; exact absurd rfl h
  | cons r rest ih =>
      intro w hinv _
      have h1 := log_error_props config w r hinv
      exact foldl_log_error_keeps config rest _ h1.1 h1.2.2.1 h1.2.2.2

/-- finalize deletes exactly when its argument is true, keep-on-success is
off, something was written, and the file is present. -/
theorem finalize_snd (config : Config) (w : LoggerState) (b : Bool) :
    (Logger.finalize config w b).2
      = (b && !config.log_on_success && w.has_written && w.fileExists) := by
  cases b <;> cases hk : config.log_on_success <;> cases hw : w.has_written <;>
    cases hf : w.fileExists <;> simp [Logger.finalize, hk, hw, hf]

theorem finalize_fst_fields (config : Config) (w : LoggerState) (b : Bool) :
    (Logger.finalize config w b).1.has_written = w.has_written
  ∧ (Logger.finalize config w b).1.calls = w.calls := by
  cases b <;> cases hk : config.log_on_success <;> cases hw : w.has_written <;>
    cases hf : w.fileExists <;> simp [Logger.finalize, hk, hw, hf]

/-- C3: starting from a fresh Logger, after any sequence rs of log_error
calls, finalize(b) deletes the log file iff b is true, keep-on-success is
false and at least one log_error call occurred; with no log_error call at
all, neither the calls nor finalize perform any file-system operation. -/
theorem finalize_deletes_iff (config : Config) (b fileExists0 : Bool) (rs : List String) :
    ((Logger.finalize config (List.foldl (Logger.log_error config)
          (LoggerState.init fileExists0) rs) b).2 = true
      ↔ (b = true ∧ config.log_on_success = false ∧ rs ≠ []))
  ∧ (rs = [] →
      (List.foldl (Logger.log_error config) (LoggerState.init fileExists0) rs).trace = []
      ∧ (Logger.finalize config (List.foldl (Logger.log_error config)
          (LoggerState.init fileExists0) rs) b).1.trace = []) := by
  have hinv : LoggerInv (LoggerState.init fileExists0) := by
    constructor <;> intro h <;> simp [LoggerState.init] at h
  cases rs with
  | nil =>
      constructor
      · rw [finalize_snd]
        simp [LoggerState.init]
      · intro _
        constructor
        · rfl
        · cases b <;> cases hk : config.log_on_success <;>
            simp [Logger.finalize, LoggerState.init, hk]
  | cons r rest =>
      have hw := foldl_log_error_written config (r :: rest)
        (LoggerState.init fileExists0) hinv (by simp)
      constructor
      · rw [finalize_snd, hw.1, hw.2]
        cases b <;> cases hk : config.log_on_success <;> simp [hk]
      · intro h
        simp at h

/-- Witness for C3: one log_error call, a successful build and the default
keep-on-success policy delete the file. -/
theorem finalize_deletes_iff_witness :
    (Logger.finalize configDefault (List.foldl (Logger.log_error configDefault)
        (LoggerState.init false) ["boom"]) true).2 = true :=
  (finalize_deletes_iff configDefault true false ["boom"]).1.mpr
    ⟨rfl, rfl, by simp⟩

theorem foldl_log_error_trace_opened (config : Config) :
    ∀ (rs : List String) (w : LoggerState), w.opened = true →
      (List.foldl (Logger.log_error config) w rs).trace
        = w.trace ++ rs.flatMap (logEntryOps config) := by
  intro rs
  induction rs with
  | nil => intro w _; simp
  | cons r rest ih =>
      intro w ho
      have h1 : (Logger.log_error config w r).trace = w.trace ++ logEntryOps config r := by
        simp [Logger.log_error, ho]
      have h2 : (Logger.log_error config w r).opened = true := by
        simp [Logger.log_error, ho]
      simp only [List.foldl_cons]
      rw [ih _ h2, h1]
      simp [List.append_assoc]

/-- C10: across any sequence of log_error calls the file-system trace is:
nothing at all for the empty sequence, and otherwise exactly one
truncate-open followed by the header lines (once, before any error text),
then, for each call in order, its formatted text, one blank separator line
and a flush.  In particular the file is opened and truncated exactly once,
on the first call, and the header is never rewritten. -/
theorem logger_trace_shape (config : Config) (fileExists0 : Bool) (rs : List String) :
    (List.foldl (Logger.log_error config) (LoggerState.init fileExists0) rs).trace
      = if rs.isEmpty then [] else logHeaderOps ++ rs.flatMap (logEntryOps config) := by
  cases rs with
  | nil => rfl
  | cons r rest =>
      have ho : (Logger.log_error config (LoggerState.init fileExists0) r).opened = true := by
        simp [Logger.log_error, LoggerState.init]
      have htr : (Logger.log_error config (LoggerState.init fileExists0) r).trace
          = logHeaderOps ++ logEntryOps config r := by
        simp [Logger.log_error, LoggerState.init]
      simp only [List.foldl_cons, List.isEmpty_cons, Bool.false_eq_true, if_false]
      rw [foldl_log_error_trace_opened config rest _ ho, htr]
      simp [List.append_assoc]

/-! ## The runner (C1, C2, C6, C7, C8) -/

theorem getLast?_or_append {α : Type} (x y : List α) (d : Option α) :
    ((x ++ y).getLast?).or d = (y.getLast?).or ((x.getLast?).or d) := by
  rw [List.getLast?_append]
  cases y.getLast? <;> rfl

theorem observedFinishes_append (p : String → Option Json) (l1 l2 : List String) :
    observedFinishes p (l1 ++ l2) = observedFinishes p l1 ++ observedFinishes p l2 := by
  simp [observedFinishes]

theorem routeCompilerMessage_untouched (sc : Bool) (config : Config) (acc : RunAcc)
    (level rendered : String) :
    (routeCompilerMessage sc config acc level rendered).events = acc.events
  ∧ (routeCompilerMessage sc config acc level rendered).build_success = acc.build_success := by
  unfold routeCompilerMessage
  split_ifs <;> exact ⟨rfl, rfl⟩

theorem routeCompilerMessage_inv (sc : Bool) (config : Config) (acc : RunAcc)
    (level rendered : String) (h : LoggerInv acc.logger) :
    LoggerInv (routeCompilerMessage sc config acc level rendered).logger := by
  unfold routeCompilerMessage
  split_ifs
  · exact (log_error_props config acc.logger rendered h).1
  · exact (log_error_props config acc.logger rendered h).1
  · exact h
  · exact h

theorem processLine_ok_spec (p : String → Option Json) (sc : Bool) (config : Config)
    (acc acc2 : RunAcc) (line : String)
    (h : processLine p sc config acc line = .ok acc2) :
    acc2.events = acc.events ++ [RunEvent.readStdout line]
  ∧ acc2.build_success = ((observedFinishes p [line]).getLast?).or acc.build_success
  ∧ (LoggerInv acc.logger → LoggerInv acc2.logger) := by
  unfold processLine at h
  cases hp : parse_cargo_message p line with
  | error e =>
      rw [hp] at h
      exact Except.noConfusion h
  | ok m =>
      rw [hp] at h
      cases m with
      | none =>
          injection h with h2
          subst h2
          exact ⟨rfl, by simp [observedFinishes, hp], fun hv => hv⟩
      | some msg =>
          cases msg with
          | CompilerMessage level rendered =>
              injection h with h2
              subst h2
              refine ⟨?_, ?_, ?_⟩
              · rw [(routeCompilerMessage_untouched sc config _ level rendered).1]
              · rw [(routeCompilerMessage_untouched sc config _ level rendered).2]
                simp [observedFinishes, hp]
              · intro hv
                exact routeCompilerMessage_inv sc config _ level rendered hv
          | BuildFinished b =>
              injection h with h2
              subst h2
              refine ⟨rfl, ?_, fun hv => hv⟩
              simp [observedFinishes, hp, Option.or]

theorem processLines_ok_spec (p : String → Option Json) (sc : Bool) (config : Config) :
    ∀ (lines : List String) (acc acc2 : RunAcc),
      processLines p sc config acc lines = .ok acc2 →
      acc2.events = acc.events ++ lines.map RunEvent.readStdout
    ∧ acc2.build_success = ((observedFinishes p lines).getLast?).or acc.build_success
    ∧ (LoggerInv acc.logger → LoggerInv acc2.logger) := by
  intro lines
  induction lines with
  | nil =>
      intro acc acc2 h
      injection h with h2
      subst h2
      exact ⟨by simp, by simp [observedFinishes, Option.or], fun hv => hv⟩
  | cons line rest ih =>
      intro acc acc2 h
      unfold processLines at h
      cases hp : processLine p sc config acc line with
      | error e => rw [hp] at h; exact Except.noConfusion h
      | ok acc1 =>
          rw [hp] at h
          have h1 := processLine_ok_spec p sc config acc acc1 line hp
          have h2 := ih acc1 acc2 h
          refine ⟨?_, ?_, fun hv => h2.2.2 (h1.2.2 hv)⟩
          · rw [h2.1, h1.1]
            simp
          · rw [h2.2.1, h1.2.1]
            have hobs : observedFinishes p (line :: rest)
                = observedFinishes p [line] ++ observedFinishes p rest :=
              observedFinishes_append p [line] rest
            rw [hobs, getLast?_or_append]

/-- C1: the coordinator is strictly sequential: in every completed run the
event trace consists of all the stdout reads (in order), then all the
captured stderr reads, then the wait for child exit.  The captured stderr is
not read before stdout reaches end of file, and the child is not reaped
before both, so the three activities are not concurrent: a child that fills
the stderr pipe buffer while its stdout is still open deadlocks. -/
theorem run_build_drains_sequentially (p : String → Option Json) (sc : Bool)
    (config : Config) (fileExists0 : Bool) (child : ChildRun) (r : RunResult)
    (h : run_build p sc config fileExists0 child = .ok r) :
    r.events = child.stdoutLines.map RunEvent.readStdout
      ++ (capturedStderr config child).map RunEvent.readStderr
      ++ [RunEvent.waitChild] := by
  unfold run_build at h
  cases hpl : processLines p sc config (RunAcc.init fileExists0) child.stdoutLines with
  | error e => rw [hpl] at h; exact Except.noConfusion h
  | ok acc =>
      rw [hpl] at h
      injection h with h2
      subst h2
      have hev := (processLines_ok_spec p sc config child.stdoutLines _ _ hpl).1
      show acc.events ++ (capturedStderr config child).map RunEvent.readStderr
        ++ [RunEvent.waitChild] = _
      rw [hev]
      simp [RunAcc.init]

/-- Witness for C1: one unparseable stdout line, one captured stderr line. -/
theorem run_build_drains_sequentially_witness :
    ((run_build parseNone false configDefault false childSeq).toOption.getD
        default).events
      = [RunEvent.readStdout "x", RunEvent.readStderr "boom", RunEvent.waitChild] := by
  have h := run_build_drains_sequentially parseNone false configDefault false childSeq
    ((run_build parseNone false configDefault false childSeq).toOption.getD default)
    (by rfl)
  rw [h]
  rfl

/-- Pure boolean computation behind the finalize decision at run level. -/
theorem bool_finalize_eq (F S D K hw fe : Bool) (h : hw = true → fe = true) :
    (F && !(S || D) && !K && hw && fe) = (F && !S && !D && !K && hw) := by
  cases hw with
  | false => simp
  | true =>
      rw [h rfl]
      cases F <;> cases S <;> cases D <;> cases K <;> rfl

/-- C2 amended: the log file is deleted at finalization exactly when the
build succeeded, no structured error was routed, no raw fallback was
force-logged, the keep-on-success policy is false, and at least one log
entry was written; otherwise it is retained. -/
theorem log_deleted_iff_success_and_clean (p : String → Option Json) (sc : Bool)
    (config : Config) (fileExists0 : Bool) (child : ChildRun) (r : RunResult)
    (h : run_build p sc config fileExists0 child = .ok r) :
    r.fileDeleted = (r.finalSuccess && !r.structuredError && !r.fallbackLogged
      && !config.log_on_success && r.logger.has_written) := by
  unfold run_build at h
  cases hpl : processLines p sc config (RunAcc.init fileExists0) child.stdoutLines with
  | error e => rw [hpl] at h; exact Except.noConfusion h
  | ok acc =>
      rw [hpl] at h
      injection h with h2
      subst h2
      have hinv0 : LoggerInv (RunAcc.init fileExists0).logger := by
        constructor <;> intro hx <;> simp [RunAcc.init, LoggerState.init] at hx
      have hinv : LoggerInv acc.logger :=
        (processLines_ok_spec p sc config child.stdoutLines _ _ hpl).2.2 hinv0
      have hinv1 : LoggerInv (runLogger1 config acc child) := by
        unfold runLogger1
        split_ifs
        · exact (log_error_props config acc.logger (fallbackText config child) hinv).1
        · exact hinv
      have hfe : (runLogger1 config acc child).has_written = true →
          (runLogger1 config acc child).fileExists = true :=
        fun hw => hinv1.2 (hinv1.1 hw)
      show (runFinalize config acc child).2
        = (runFinalSuccess acc child && !acc.has_errors && !runDoFallback config acc child
            && !config.log_on_success && (runFinalize config acc child).1.has_written)
      unfold runFinalize
      rw [finalize_snd,
        (finalize_fst_fields config (runLogger1 config acc child)
          (runFinalSuccess acc child && !runHasErrors config acc child)).1]
      unfold runHasErrors
      exact bool_finalize_eq (runFinalSuccess acc child) acc.has_errors
        (runDoFallback config acc child) config.log_on_success
        (runLogger1 config acc child).has_written
        (runLogger1 config acc child).fileExists hfe

/-- C2 counterexample: a run in which the build succeeded, no raw fallback
was force-logged and keep-on-success is false, yet the log file (present:
one structured error was logged) is retained. -/
theorem log_retained_after_success_with_errors :
    (run_build parseStub false configDefault false childSuccessWithError).toOption.map
        (fun r => (r.finalSuccess, r.fallbackLogged, r.logger.has_written, r.fileDeleted))
      = some (true, false, true, false) := by
  rfl

/-- Witness for the amended C2 statement at a concrete run. -/
theorem log_deleted_iff_witness :
    ((run_build parseStub false configDefault false childSuccessWithError).toOption.getD
        default).fileDeleted = false := by
  have h := log_deleted_iff_success_and_clean parseStub false configDefault false
    childSuccessWithError
    ((run_build parseStub false configDefault false childSuccessWithError).toOption.getD
      default) (by rfl)
  rw [h]
  rfl

/-- C6: routing of a decoded CompilerMessage by level: level error always
prints to the terminal and logs; level warning prints iff include-warnings is
enabled and logs iff additionally keep-on-success is set; any other level
changes nothing. -/
theorem route_compiler_message_by_level (sc : Bool) (config : Config) (acc : RunAcc)
    (level rendered : String) :
    ((routeCompilerMessage sc config acc level rendered).terminal
      = acc.terminal ++
        (if level = "error" ∨ (level = "warning" ∧ config.include_warnings = true)
         then [format_for_terminal sc config rendered] else []))
  ∧ ((routeCompilerMessage sc config acc level rendered).logger.calls
      = acc.logger.calls ++
        (if level = "error" ∨ (level = "warning" ∧ config.include_warnings = true
            ∧ config.log_on_success = true)
         then [rendered] else []))
  ∧ (level ≠ "error" → level ≠ "warning" →
      routeCompilerMessage sc config acc level rendered = acc) := by
  by_cases h1 : level = "error"
  · subst h1
    refine ⟨?_, ?_, fun hne _ => absurd rfl hne⟩
    · simp [routeCompilerMessage]
    · simp [routeCompilerMessage, log_error_calls]
  · by_cases h2 : level = "warning"
    · subst h2
      have hne : ("warning" : String) ≠ "error" := by decide
      by_cases hw : config.include_warnings = true
      · by_cases hk : config.log_on_success = true
        · refine ⟨?_, ?_, fun _ hne2 => absurd rfl hne2⟩ <;>
            simp [routeCompilerMessage, hne, hw, hk, log_error_calls]
        · refine ⟨?_, ?_, fun _ hne2 => absurd rfl hne2⟩ <;>
            simp [routeCompilerMessage, hne, hw, hk, log_error_calls]
      · refine ⟨?_, ?_, fun _ hne2 => absurd rfl hne2⟩ <;>
          simp [routeCompilerMessage, hne, hw]
    · have hno : ¬(level = "error" ∨ (level = "warning" ∧ config.include_warnings = true)) := by
        rintro (hx | ⟨hx, _⟩)
        · exact h1 hx
        · exact h2 hx
      have hno2 : ¬(level = "error" ∨ (level = "warning" ∧ config.include_warnings = true
          ∧ config.log_on_success = true)) := by
        rintro (hx | ⟨hx, _⟩)
        · exact h1 hx
        · exact h2 hx
      refine ⟨?_, ?_, fun _ _ => ?_⟩ <;>
        simp [routeCompilerMessage, h1, h2, hno, hno2]

/-- Witness for C6: a message of another level (note) is dropped entirely. -/
theorem route_compiler_message_witness :
    routeCompilerMessage false configDefault (RunAcc.init false) "note" "text"
      = RunAcc.init false :=
  (route_compiler_message_by_level false configDefault (RunAcc.init false)
      "note" "text").2.2 (by decide) (by decide)

/-- C7: the final success is the success flag of the last BuildFinished event
observed on the stream, or, when none was observed, success iff the exit code
is zero; the process exit code is the child's exit code exactly, with 1 only
when no code is available. -/
theorem final_success_and_exit_code (p : String → Option Json) (sc : Bool)
    (config : Config) (fileExists0 : Bool) (child : ChildRun) (r : RunResult)
    (h : run_build p sc config fileExists0 child = .ok r) :
    r.exitCode = child.exitCode.getD 1
  ∧ r.finalSuccess = ((observedFinishes p child.stdoutLines).getLast?).getD
      ((child.exitCode.getD 1 : Int) == 0) := by
  unfold run_build at h
  cases hpl : processLines p sc config (RunAcc.init fileExists0) child.stdoutLines with
  | error e => rw [hpl] at h; exact Except.noConfusion h
  | ok acc =>
      rw [hpl] at h
      injection h with h2
      subst h2
      refine ⟨rfl, ?_⟩
      have hbs := (processLines_ok_spec p sc config child.stdoutLines _ _ hpl).2.1
      show acc.build_success.getD ((child.exitCode.getD 1 : Int) == 0) = _
      rw [hbs]
      cases hx : (observedFinishes p child.stdoutLines).getLast? <;>
        simp [RunAcc.init, Option.or]

/-- Witness for C7: two BuildFinished events, false then true, and exit code
7: the last event wins and the exit code is passed through. -/
theorem final_success_and_exit_code_witness :
    ((run_build parseStub false configDefault false childLastWins).toOption.getD
        default).exitCode = 7
  ∧ ((run_build parseStub false configDefault false childLastWins).toOption.getD
        default).finalSuccess = true := by
  have h := final_success_and_exit_code parseStub false configDefault false childLastWins
    ((run_build parseStub false configDefault false childLastWins).toOption.getD default)
    (by rfl)
  refine ⟨?_, ?_⟩
  · rw [h.1]
    rfl
  · rw [h.2]
    rfl

/-- C8: the raw-stderr fallback fires exactly when the final result is
failure, no structured error was routed, and the captured stderr is
non-empty; when it fires, the captured lines are joined and logged as one
single error block, the run is marked as having an error, and the log file
is not deleted at finalization. -/
theorem fallback_logging_iff (p : String → Option Json) (sc : Bool) (config : Config)
    (fileExists0 : Bool) (child : ChildRun) (r : RunResult)
    (h : run_build p sc config fileExists0 child = .ok r) :
    (r.fallbackLogged = true ↔
      (r.finalSuccess = false ∧ r.structuredError = false
        ∧ capturedStderr config child ≠ []))
  ∧ (r.fallbackLogged = true →
      r.hasErrors = true ∧ r.fileDeleted = false
      ∧ ∃ pre, r.logger.calls = pre ++ [fallbackText config child]) := by
  unfold run_build at h
  cases hpl : processLines p sc config (RunAcc.init fileExists0) child.stdoutLines with
  | error e => rw [hpl] at h; exact Except.noConfusion h
  | ok acc =>
      rw [hpl] at h
      injection h with h2
      subst h2
      constructor
      · show runDoFallback config acc child = true ↔
          (runFinalSuccess acc child = false ∧ acc.has_errors = false
            ∧ capturedStderr config child ≠ [])
        unfold runDoFallback
        simp [Bool.and_eq_true, Bool.not_eq_true', List.isEmpty_eq_false, and_assoc]
      · intro hx
        have hx2 : runDoFallback config acc child = true := hx
        have hfs : runFinalSuccess acc child = false := by
          unfold runDoFallback at hx2
          simp [Bool.and_eq_true, Bool.not_eq_true'] at hx2
          exact hx2.1.1
        refine ⟨?_, ?_, ⟨acc.logger.calls, ?_⟩⟩
        · show runHasErrors config acc child = true
          simp [runHasErrors, hx2]
        · show (runFinalize config acc child).2 = false
          unfold runFinalize
          rw [finalize_snd]
          simp [hfs]
        · show (runFinalize config acc child).1.calls
            = acc.logger.calls ++ [fallbackText config child]
          unfold runFinalize
          rw [(finalize_fst_fields config (runLogger1 config acc child)
            (runFinalSuccess acc child && !runHasErrors config acc child)).2]
          unfold runLogger1
          rw [hx2]
          simp [log_error_calls]

/-- Witness for C8 at spec scenario 4: exit code 1, no structured messages,
captured stderr text linker error. -/
theorem fallback_logging_iff_witness :
    ((run_build parseNone false configDefault false childFallback).toOption.getD
        default).hasErrors = true
  ∧ ((run_build parseNone false configDefault false childFallback).toOption.getD
        default).fileDeleted = false := by
  have h := fallback_logging_iff parseNone false configDefault false childFallback
    ((run_build parseNone false configDefault false childFallback).toOption.getD default)
    (by rfl)
  have hf : ((run_build parseNone false configDefault false childFallback).toOption.getD
      default).fallbackLogged = true := by rfl
  exact ⟨(h.2 hf).1, (h.2 hf).2.1⟩

end CargoBuilder
